import Mathlib

/-!
Shallow embedding of the artifact-store worker (`src/index.ts`) and proofs
about its authorization, filename-validation, and key-derivation logic.

JavaScript strings are modelled as Lean `String` (a wrapper around
`List Char`); the JS string operations the worker uses (`startsWith`,
`replace` with a string pattern, template-literal concatenation, the `||`
falsy-default idiom) are embedded as explicit functions below.  The R2
bucket is modelled as a list of stored objects; `jose.jwtVerify` (an
external library call doing network + crypto) is abstracted as an oracle
parameter `joseVerify : String → Except String GitHubOIDCClaims` whose
`.error` case stands for a thrown verification error and `.ok` for the
decoded payload.
-/

namespace ArtifactStore

/-- `listIsPrefixOf p l`: `p` is a prefix of `l` (recursion on `p` first, so
that a concrete pattern reduces against a partially symbolic target). -/
def listIsPrefixOf : List Char → List Char → Bool
  | [], _ => true
  | a :: as, l =>
    match l with
    | [] => false
    | b :: bs => a == b && listIsPrefixOf as bs

/-- JS `s.startsWith(p)`: `p` is a prefix of `s` as a character sequence. -/
def strStartsWith (s p : String) : Bool := listIsPrefixOf p.data s.data

/-- JS `s.slice(n)` for a nonnegative `n`: drop the first `n` characters. -/
def strDrop (s : String) (n : Nat) : String := ⟨s.data.drop n⟩

/-- Replace the first occurrence of `pat` in the list by `repl`
(JS `String.prototype.replace` with a string pattern); if `pat` does not
occur, the list is returned unchanged. -/
def replaceFirstList (pat repl : List Char) : List Char → List Char
  | [] =>
    if listIsPrefixOf pat ([] : List Char) then repl ++ ([] : List Char).drop pat.length else []
  | c :: cs =>
    if listIsPrefixOf pat (c :: cs) then repl ++ (c :: cs).drop pat.length
    else c :: replaceFirstList pat repl cs

/-- JS `s.replace(pat, repl)` with a string pattern: first occurrence only. -/
def jsReplaceFirst (s pat repl : String) : String :=
  ⟨replaceFirstList pat.data repl.data s.data⟩

/-- Membership in the character class `[a-zA-Z0-9._-]` of the filename regex. -/
def isFilenameChar (c : Char) : Bool :=
  decide ('a' ≤ c ∧ c ≤ 'z') || decide ('A' ≤ c ∧ c ≤ 'Z') ||
  decide ('0' ≤ c ∧ c ≤ '9') || c == '.' || c == '_' || c == '-'

/-- `/^[a-zA-Z0-9._-]+$/.test s`: `s` is nonempty and every character is in
the class. -/
def filenameRegexTest (s : String) : Bool :=
  !s.data.isEmpty && s.data.all isFilenameChar

def GITHUB_OIDC_ISSUER : String := "https://token.actions.githubusercontent.com"

def GITHUB_JWKS_URI : String :=
  "https://token.actions.githubusercontent.com/.well-known/jwks"

/-- The claims payload of a GitHub OIDC token (interface `GitHubOIDCClaims`);
the generic `jose.JWTPayload` fields the worker never reads are omitted. -/
structure GitHubOIDCClaims where
  repository : String
  repository_owner : String
  ref : String
  ref_type : String
  job_workflow_ref : String
  event_name : String
  actor : String
  run_id : String
  run_number : String
  run_attempt : String
deriving DecidableEq

/-- `verifyGitHubOIDCToken`: run `jose.jwtVerify` (the oracle; its `.error`
is a thrown signature/issuer/temporal failure), then reject when the
`repository` claim differs from `allowedRepository`, with the same
message the source builds in its `throw new Error(...)`. -/
def verifyGitHubOIDCToken (joseVerify : String → Except String GitHubOIDCClaims)
    (token : String) (allowedRepository : String) : Except String GitHubOIDCClaims :=
  match joseVerify token with
  | .error e => .error e
  | .ok claims =>
    if claims.repository != allowedRepository then
      .error ("Repository mismatch: expected " ++ allowedRepository ++ ", got " ++
        claims.repository)
    else
      .ok claims

/-- `extractBranchFromRef`. -/
def extractBranchFromRef (ref : String) : String :=
  if strStartsWith ref "refs/heads/" then jsReplaceFirst ref "refs/heads/" ""
  else if strStartsWith ref "refs/tags/" then jsReplaceFirst ref "refs/tags/" ""
  else ref

/-- `R2Object.httpMetadata`. -/
structure R2HTTPMetadata where
  contentType : Option String
deriving DecidableEq

/-- The custom-metadata record the worker writes and reads; each field is
optional because a stored object need not carry it. -/
structure R2CustomMetadata where
  repository : Option String
  branch : Option String
  ref : Option String
  actor : Option String
  run_id : Option String
  run_number : Option String
  uploaded_at : Option String
deriving DecidableEq

/-- A stored R2 object (`uploaded` is kept in its ISO-string form, which is
the only form the worker uses). -/
structure R2ObjectRec where
  key : String
  size : Nat
  uploaded : String
  httpMetadata : Option R2HTTPMetadata
  customMetadata : Option R2CustomMetadata
  body : String
deriving DecidableEq

/-- `bucket.get key`. -/
def r2Get (bucket : List R2ObjectRec) (key : String) : Option R2ObjectRec :=
  bucket.find? (fun o => o.key == key)

/-- `bucket.list prefix-p`: the stored objects whose key starts with `p`. -/
def r2List (bucket : List R2ObjectRec) (p : String) : List R2ObjectRec :=
  bucket.filter (fun o => strStartsWith o.key p)

/-- `bucket.put key body opts`: overwrite semantics — any object already at
`key` is replaced. -/
def r2Put (bucket : List R2ObjectRec) (key bodyBytes contentType : String)
    (customMetadata : R2CustomMetadata) (now : String) : List R2ObjectRec :=
  { key := key, size := bodyBytes.length, uploaded := now,
    httpMetadata := some { contentType := some contentType },
    customMetadata := some customMetadata, body := bodyBytes } ::
    bucket.filter (fun o => o.key != key)

/-- An HTTP response: status, headers in the order they are set, body text
(for JSON responses, the serialized JSON; for downloads, the object bytes). -/
structure HttpResponse where
  status : Nat
  headers : List (String × String)
  body : String
deriving DecidableEq

def quoteChar : Char := Char.ofNat 34

def backslashChar : Char := Char.ofNat 92

/-- `JSON.stringify` escaping of one character (quote and backslash; the
strings the worker serializes contain no control characters). -/
def jsonEscapeChar (c : Char) : List Char :=
  if c == quoteChar || c == backslashChar then [backslashChar, c] else [c]

def jsonEscape (s : String) : String := ⟨s.data.flatMap jsonEscapeChar⟩

/-- A JSON string literal. -/
def jsonStr (s : String) : String := "\x22" ++ jsonEscape s ++ "\x22"

/-- `JSON.stringify (\x7b error: msg \x7d)`. -/
def jsonErrorBody (msg : String) : String :=
  "\x7b\x22error\x22:" ++ jsonStr msg ++ "\x7d"

/-- A JSON response with the `Content-Type` header the worker always sets. -/
def jsonResponse (status : Nat) (bodyStr : String) : HttpResponse :=
  { status := status, headers := [("Content-Type", "application/json")], body := bodyStr }

/-- `url.searchParams.get("branch") || "main"`: `get` yields `null` when the
parameter is absent, and `||` also replaces the falsy empty string. -/
def effectiveBranch (branchParam : Option String) : String :=
  match branchParam with
  | none => "main"
  | some b => if b == "" then "main" else b

/-- Body of the upload success response,
`JSON.stringify (\x7b success, key, message \x7d)`. -/
def uploadSuccessBody (key : String) : String :=
  "\x7b\x22success\x22:true,\x22key\x22:" ++ jsonStr key ++ ",\x22message\x22:" ++
    jsonStr ("Artifact uploaded successfully to " ++ key) ++ "\x7d"

/-- `request.headers.get("Content-Type") || "application/octet-stream"`. -/
def uploadContentType (reqContentType : Option String) : String :=
  match reqContentType with
  | none => "application/octet-stream"
  | some ct => if ct == "" then "application/octet-stream" else ct

/-- The `customMetadata` record `handleUpload` attaches to the stored
object. -/
def uploadCustomMetadata (claims : GitHubOIDCClaims) (branch now : String) :
    R2CustomMetadata :=
  { repository := some claims.repository, branch := some branch,
    ref := some claims.ref, actor := some claims.actor,
    run_id := some claims.run_id, run_number := some claims.run_number,
    uploaded_at := some now }

/-- `handleUpload` (claims already verified by the dispatcher): check the
filename parameter (JS `!filename` is true for `null` and for the empty
string), test the regex, derive the key, check the body, and `put` with
overwrite.  Returns the response together with the updated bucket;
`now` stands for `new Date().toISOString()`. -/
def handleUpload (bucket : List R2ObjectRec) (claims : GitHubOIDCClaims)
    (filenameParam : Option String) (reqBody : Option String)
    (reqContentType : Option String) (now : String) :
    HttpResponse × List R2ObjectRec :=
  match filenameParam with
  | none => (jsonResponse 400 (jsonErrorBody "Missing filename parameter"), bucket)
  | some filename =>
    if filename == "" then
      (jsonResponse 400 (jsonErrorBody "Missing filename parameter"), bucket)
    else if !(filenameRegexTest filename) then
      (jsonResponse 400 (jsonErrorBody "Invalid filename format"), bucket)
    else
      let branch := extractBranchFromRef claims.ref
      let key := branch ++ "/latest/" ++ filename
      match reqBody with
      | none => (jsonResponse 400 (jsonErrorBody "Request body is required"), bucket)
      | some bodyBytes =>
        (jsonResponse 200 (uploadSuccessBody key),
         r2Put bucket key bodyBytes (uploadContentType reqContentType)
           (uploadCustomMetadata claims branch now) now)

/-- One entry of the list response, `JSON.stringify` of
`\x7b key, size, uploaded \x7d`. -/
def artifactEntryJson (key : String) (size : Nat) (uploaded : String) : String :=
  "\x7b\x22key\x22:" ++ jsonStr key ++ ",\x22size\x22:" ++ Nat.repr size ++
    ",\x22uploaded\x22:" ++ jsonStr uploaded ++ "\x7d"

/-- Body of the list response, `JSON.stringify (\x7b branch, artifacts \x7d)`. -/
def listBodyJson (branch : String) (arts : List R2ObjectRec) : String :=
  "\x7b\x22branch\x22:" ++ jsonStr branch ++ ",\x22artifacts\x22:[" ++
    String.intercalate "," (arts.map (fun o => artifactEntryJson o.key o.size o.uploaded)) ++
    "]\x7d"

/-- `handleList`: default the branch, list by the concatenated key prefix,
always answer 200. -/
def handleList (bucket : List R2ObjectRec) (branchParam : Option String) : HttpResponse :=
  let branch := effectiveBranch branchParam
  jsonResponse 200 (listBodyJson branch (r2List bucket (branch ++ "/latest/")))

/-- The tail of `handleDownload` after `bucket.get key`: 404 when absent,
otherwise a 200 carrying the object bytes, the content type
(`object.httpMetadata?.contentType || "application/octet-stream"`), the
`Content-Disposition`, and — when `customMetadata` is present — the four
`X-Artifact-*` headers with `|| ""` defaults. -/
def downloadAfterGet (found : Option R2ObjectRec) (filename : String) : HttpResponse :=
  match found with
  | none => jsonResponse 404 (jsonErrorBody "Artifact not found")
  | some object =>
    let ct := match object.httpMetadata with
      | none => "application/octet-stream"
      | some hm => match hm.contentType with
        | none => "application/octet-stream"
        | some c => if c == "" then "application/octet-stream" else c
    let metaHeaders := match object.customMetadata with
      | none => []
      | some m =>
        [("X-Artifact-Repository", m.repository.getD ""),
         ("X-Artifact-Branch", m.branch.getD ""),
         ("X-Artifact-Uploaded-At", m.uploaded_at.getD ""),
         ("X-Artifact-Run-Id", m.run_id.getD "")]
    { status := 200,
      headers := [("Content-Type", ct),
                  ("Content-Disposition", "attachment; filename=\x22" ++ filename ++ "\x22")] ++
        metaHeaders,
      body := object.body }

/-- `handleDownload`: default the branch, check the filename parameter and
regex, then get the object at `branch ++ "/latest/" ++ filename`. -/
def handleDownload (bucket : List R2ObjectRec) (branchParam filenameParam : Option String) :
    HttpResponse :=
  let branch := effectiveBranch branchParam
  match filenameParam with
  | none => jsonResponse 400 (jsonErrorBody "Missing filename parameter")
  | some filename =>
    if filename == "" then jsonResponse 400 (jsonErrorBody "Missing filename parameter")
    else if !(filenameRegexTest filename) then
      jsonResponse 400 (jsonErrorBody "Invalid filename")
    else
      downloadAfterGet (r2Get bucket (branch ++ "/latest/" ++ filename)) filename

/-- The inputs of the upload route that the dispatcher reads from the
request. -/
structure UploadRequest where
  authHeader : Option String
  filenameParam : Option String
  reqBody : Option String
  contentType : Option String
deriving DecidableEq

/-- The `PUT /upload` branch of the worker `fetch` handler: 401 unless the
`Authorization` header is present and starts with `Bearer `, then
`verifyGitHubOIDCToken` on the sliced token (a thrown error is caught and
becomes a 403 with the error message), then `handleUpload`. -/
def fetchUpload (joseVerify : String → Except String GitHubOIDCClaims)
    (allowedRepository : String) (bucket : List R2ObjectRec)
    (req : UploadRequest) (now : String) : HttpResponse × List R2ObjectRec :=
  match req.authHeader with
  | none => (jsonResponse 401 (jsonErrorBody "Missing or invalid Authorization header"), bucket)
  | some authHeader =>
    if !(strStartsWith authHeader "Bearer ") then
      (jsonResponse 401 (jsonErrorBody "Missing or invalid Authorization header"), bucket)
    else
      match verifyGitHubOIDCToken joseVerify (strDrop authHeader 7) allowedRepository with
      | .error e => (jsonResponse 403 (jsonErrorBody e), bucket)
      | .ok claims => handleUpload bucket claims req.filenameParam req.reqBody req.contentType now

/-- Process-wide resource accounting for the verification key set: how many
remote key-set fetchers (`jose.createRemoteJWKSet`) have been constructed
since process start. -/
structure JWKSProcessState where
  remoteJWKSetConstructions : Nat
deriving DecidableEq

/-- `verifyGitHubOIDCToken` with the key-set accounting made explicit: the
source evaluates `const JWKS = jose.createRemoteJWKSet(new URL(GITHUB_JWKS_URI))`
unconditionally in the function body, so every call constructs one fresh
fetcher before verifying. -/
def verifyGitHubOIDCTokenCounted (st : JWKSProcessState)
    (joseVerify : String → Except String GitHubOIDCClaims)
    (token allowedRepository : String) :
    JWKSProcessState × Except String GitHubOIDCClaims :=
  (⟨st.remoteJWKSetConstructions + 1⟩,
   verifyGitHubOIDCToken joseVerify token allowedRepository)

/-- Run a sequence of verification calls (token, allowed repository) against
the process state. -/
def verifyCallSequence (joseVerify : String → Except String GitHubOIDCClaims)
    (st : JWKSProcessState) (calls : List (String × String)) : JWKSProcessState :=
  calls.foldl (fun s c => (verifyGitHubOIDCTokenCounted s joseVerify c.1 c.2).fst) st

/-- Whether `pat` occurs as a contiguous substring of the list. -/
def listContainsSub (pat : List Char) : List Char → Bool
  | [] => listIsPrefixOf pat ([] : List Char)
  | c :: cs => listIsPrefixOf pat (c :: cs) || listContainsSub pat cs

/-- Whether `t` occurs as a contiguous substring of `s`. -/
def strContainsSub (s t : String) : Bool := listContainsSub t.data s.data

/-- First header with the given name, if any. -/
def headerGet (headers : List (String × String)) (nm : String) : Option String :=
  (headers.find? (fun p => p.1 == nm)).map (fun p => p.2)

/-- A sample verified-claims value for the allowed repository. -/
def sampleClaims : GitHubOIDCClaims :=
  { repository := "f3liz-dev/noraneko-runtime", repository_owner := "f3liz-dev",
    ref := "refs/heads/main", ref_type := "branch",
    job_workflow_ref := "f3liz-dev/noraneko-runtime/.github/workflows/build.yml",
    event_name := "push", actor := "octocat", run_id := "123", run_number := "7",
    run_attempt := "1" }

/-- A claims value whose repository claim is not the allowed one. -/
def evilClaims : GitHubOIDCClaims := { sampleClaims with repository := "evil/repo" }

/-! ### Helper lemmas -/

theorem listIsPrefixOf_append_self (p t : List Char) : listIsPrefixOf p (p ++ t) = true := by
  induction p with
  | nil => rfl
  | cons c cs ih => simp [listIsPrefixOf, ih]

theorem listContainsSub_from_here (pat b : List Char) : listContainsSub pat (pat ++ b) = true := by
  cases pat with
  | nil =>
    cases b with
    | nil => rfl
    | cons c cs => simp [listContainsSub, listIsPrefixOf]
  | cons c cs =>
    simp [listContainsSub, listIsPrefixOf, listIsPrefixOf_append_self]

theorem listContainsSub_append (a pat b : List Char) :
    listContainsSub pat (a ++ pat ++ b) = true := by
  induction a with
  | nil => simpa using listContainsSub_from_here pat b
  | cons c cs ih =>
    simp only [List.cons_append, listContainsSub, Bool.or_eq_true]
    exact Or.inr (by simpa [List.append_assoc] using ih)

/-- Characters that `jsonEscape` leaves unchanged. -/
def escFreeChar (c : Char) : Bool := !(c == quoteChar || c == backslashChar)

theorem flatMap_jsonEscapeChar_of_escFree (l : List Char) (h : l.all escFreeChar = true) :
    l.flatMap jsonEscapeChar = l := by
  induction l with
  | nil => rfl
  | cons c cs ih =>
    simp only [List.all_cons, Bool.and_eq_true] at h
    have hc : (c == quoteChar || c == backslashChar) = false := by
      have := h.1
      simpa [escFreeChar] using this
    simp [jsonEscapeChar, hc, ih h.2]

theorem filenameRegexTest_of_bad_char (f : String)
    (h : f.data.any (fun c => !isFilenameChar c) = true) : filenameRegexTest f = false := by
  have hall : f.data.all isFilenameChar = false := by
    rcases List.any_eq_true.mp h with ⟨c, hc, hbad⟩
    apply Bool.eq_false_iff.mpr
    intro hall
    have := List.all_eq_true.mp hall c hc
    simp [this] at hbad
  simp [filenameRegexTest, hall]

theorem filenameRegexTest_ne_empty (f : String) (h : filenameRegexTest f = true) :
    (f == "") = false := by
  have hne : (!f.data.isEmpty) = true := (Bool.and_eq_true_iff.mp h).1
  apply Bool.eq_false_iff.mpr
  intro heq
  have : f = "" := by
    cases f with
    | mk d => simpa using heq
  subst this
  simp at hne

theorem effectiveBranch_of_ne_empty (b : String) (h : (b == "") = false) :
    effectiveBranch (some b) = b := by
  simp [effectiveBranch, h]

theorem strStartsWith_bearer (t : String) : strStartsWith ("Bearer " ++ t) "Bearer " = true := rfl

theorem strDrop_bearer (t : String) : strDrop ("Bearer " ++ t) 7 = t := rfl

/-- Shared characterization of `verifyGitHubOIDCToken` on a repository
mismatch. -/
theorem verify_repo_mismatch (joseVerify : String → Except String GitHubOIDCClaims)
    (token allowed : String) (claims : GitHubOIDCClaims)
    (hok : joseVerify token = .ok claims)
    (hne : (claims.repository == allowed) = false) :
    verifyGitHubOIDCToken joseVerify token allowed =
      .error ("Repository mismatch: expected " ++ allowed ++ ", got " ++ claims.repository) := by
  simp [verifyGitHubOIDCToken, hok, bne, hne]

theorem beq_empty_false_of_bad_char (f : String)
    (h : f.data.any (fun c => !isFilenameChar c) = true) : (f == "") = false := by
  apply Bool.eq_false_iff.mpr
  intro heq
  have : f = "" := eq_of_beq heq
  subst this
  simp at h

/-- Shared lemma: a filename with a character outside the class makes
`handleUpload` answer 400 and leave the bucket unchanged. -/
theorem handleUpload_invalid_filename (bucket : List R2ObjectRec)
    (claims : GitHubOIDCClaims) (rb ct : Option String) (now f : String)
    (h : f.data.any (fun c => !isFilenameChar c) = true) :
    handleUpload bucket claims (some f) rb ct now =
      (jsonResponse 400 (jsonErrorBody "Invalid filename format"), bucket) := by
  have hreg := filenameRegexTest_of_bad_char f h
  have hne := beq_empty_false_of_bad_char f h
  simp [handleUpload, hne, hreg]

/-- Shared lemma: a filename with a character outside the class makes
`handleDownload` answer 400 without consulting the store. -/
theorem handleDownload_invalid_filename (bucket : List R2ObjectRec)
    (bp : Option String) (f : String)
    (h : f.data.any (fun c => !isFilenameChar c) = true) :
    handleDownload bucket bp (some f) = jsonResponse 400 (jsonErrorBody "Invalid filename") := by
  have hreg := filenameRegexTest_of_bad_char f h
  have hne := beq_empty_false_of_bad_char f h
  simp [handleDownload, hne, hreg]

/-! ### Claims -/

/-- Claim C1, counterexample.  The claim states that every filename
containing `..` is rejected by the filename check of both upload and
download; but `..` consists only of characters of the class
`[a-zA-Z0-9._-]`, so the regex accepts it: download serves the object
stored at key `main/latest/..` with status 200, and upload accepts the
filename `..` and reports the storage key `main/latest/..` it built from
it. -/
theorem C1_counterexample :
    filenameRegexTest ".." = true ∧
    (handleDownload [⟨"main/latest/..", 7, "2024-01-01T00:00:00.000Z", none, none, "payload"⟩]
      (some "main") (some "..")).status = 200 ∧
    (handleUpload [] sampleClaims (some "..") (some "x") none
      "2024-01-01T00:00:00.000Z").fst.status = 200 ∧
    (handleUpload [] sampleClaims (some "..") (some "x") none
      "2024-01-01T00:00:00.000Z").fst.body =
      uploadSuccessBody ("main" ++ "/latest/" ++ "..") := by
  decide

/-- Claim C1 as amended: every filename containing `/` or any character
outside the class `[A-Za-z0-9._-]` is rejected with 400 on both the upload
and the download path (the store is left untouched and no storage key is
built); a filename all of whose characters lie in the class — including
one consisting of `..` — passes the check. -/
theorem C1_invalid_filename_rejected (bucket : List R2ObjectRec) (bp : Option String)
    (claims : GitHubOIDCClaims) (rb ct : Option String) (now f : String)
    (h : f.data.any (fun c => !isFilenameChar c) = true) :
    isFilenameChar '/' = false ∧
    handleDownload bucket bp (some f) = jsonResponse 400 (jsonErrorBody "Invalid filename") ∧
    handleUpload bucket claims (some f) rb ct now =
      (jsonResponse 400 (jsonErrorBody "Invalid filename format"), bucket) := by
  exact ⟨by decide, handleDownload_invalid_filename bucket bp f h,
    handleUpload_invalid_filename bucket claims rb ct now f h⟩

/-- Witness for C1 at the traversal filename `../../../etc/passwd`. -/
theorem C1_invalid_filename_rejected_witness :
    ("../../../etc/passwd").data.any (fun c => !isFilenameChar c) = true ∧
    handleDownload [] (some "main") (some "../../../etc/passwd") =
      jsonResponse 400 (jsonErrorBody "Invalid filename") ∧
    handleUpload [] sampleClaims (some "../../../etc/passwd") (some "x") none "t" =
      (jsonResponse 400 (jsonErrorBody "Invalid filename format"), []) := by
  refine ⟨by decide, ?_, ?_⟩
  · exact (C1_invalid_filename_rejected [] (some "main") sampleClaims (some "x") none "t"
      "../../../etc/passwd" (by decide)).2.1
  · exact (C1_invalid_filename_rejected [] (some "main") sampleClaims (some "x") none "t"
      "../../../etc/passwd" (by decide)).2.2

/-- A bucket holding one object under the key the claim predicts for the
empty branch parameter. -/
def rootBucket : List R2ObjectRec := [⟨"/latest/a", 1, "u", none, none, "x"⟩]

/-- Claim C2, counterexample.  The claim quantifies over every branch
string `b`; but for `b = ""` the code falls back to `"main"`
(`url.searchParams.get("branch") || "main"` treats the empty string as
falsy), so download does not read the key `"" ++ "/latest/" ++ f`: with an
object stored exactly at `/latest/a`, downloading branch `""` yields 404
although reading the claimed key would yield 200, and listing branch `""`
answers for branch `main`. -/
theorem C2_counterexample :
    filenameRegexTest "a" = true ∧
    r2Get rootBucket ("" ++ "/latest/" ++ "a") =
      some ⟨"/latest/a", 1, "u", none, none, "x"⟩ ∧
    (downloadAfterGet (r2Get rootBucket ("" ++ "/latest/" ++ "a")) "a").status = 200 ∧
    (handleDownload rootBucket (some "") (some "a")).status = 404 ∧
    (handleList rootBucket (some "")).body = listBodyJson "main" [] := by
  decide

/-- Claim C2 as amended: for every nonempty branch string `b` — including
strings containing `/` or `..` — and every filename `f` accepted by the
check, download reads exactly the storage key `b ++ "/latest/" ++ f` and
list uses exactly the prefix `b ++ "/latest/"`, with no validation of `b`
and no error branch for a malformed branch (list always answers 200); the
empty branch parameter alone is replaced by `main`. -/
theorem C2_branch_unvalidated (bucket : List R2ObjectRec) (b f : String)
    (hb : (b == "") = false) (hf : filenameRegexTest f = true) :
    handleDownload bucket (some b) (some f) =
      downloadAfterGet (r2Get bucket (b ++ "/latest/" ++ f)) f ∧
    handleList bucket (some b) =
      jsonResponse 200 (listBodyJson b (r2List bucket (b ++ "/latest/"))) ∧
    (handleList bucket (some b)).status = 200 := by
  have hfe := filenameRegexTest_ne_empty f hf
  refine ⟨?_, ?_, rfl⟩
  · simp [handleDownload, effectiveBranch_of_ne_empty b hb, hfe, hf]
  · simp [handleList, effectiveBranch_of_ne_empty b hb]

/-- A bucket holding one object under a traversal-shaped branch segment. -/
def traversalBucket : List R2ObjectRec := [⟨"../evil/latest/a.txt", 1, "u", none, none, "s"⟩]

/-- Witness for C2 at the traversal branch `../evil`. -/
theorem C2_branch_unvalidated_witness :
    (("../evil" : String) == "") = false ∧ filenameRegexTest "a.txt" = true ∧
    handleDownload traversalBucket (some "../evil") (some "a.txt") =
      downloadAfterGet (r2Get traversalBucket ("../evil" ++ "/latest/" ++ "a.txt")) "a.txt" := by
  refine ⟨by decide, by decide, ?_⟩
  exact (C2_branch_unvalidated traversalBucket "../evil" "a.txt" (by decide) (by decide)).1

/-- Claim C8: branch extraction strips a leading `refs/heads/`, else a
leading `refs/tags/`, else returns the ref unchanged; it is a total
function, and only the leading occurrence is removed (the first conjunct
at `s := "refs/heads/nested"` leaves the second occurrence intact, as the
witness shows). -/
theorem C8_extract_branch :
    (∀ s : String, extractBranchFromRef ("refs/heads/" ++ s) = s) ∧
    (∀ s : String, extractBranchFromRef ("refs/tags/" ++ s) = s) ∧
    (∀ r : String, strStartsWith r "refs/heads/" = false →
      strStartsWith r "refs/tags/" = false → extractBranchFromRef r = r) := by
  refine ⟨fun s => rfl, fun s => rfl, fun r h1 h2 => ?_⟩
  simp [extractBranchFromRef, h1, h2]

/-- Witness for C8: a nested-prefix ref, a tag ref, and a pass-through
ref. -/
theorem C8_extract_branch_witness :
    extractBranchFromRef ("refs/heads/" ++ "refs/heads/nested") = "refs/heads/nested" ∧
    extractBranchFromRef ("refs/tags/" ++ "v1.2") = "v1.2" ∧
    extractBranchFromRef "feature/x" = "feature/x" := by
  exact ⟨C8_extract_branch.1 "refs/heads/nested", C8_extract_branch.2.1 "v1.2",
    C8_extract_branch.2.2 "feature/x" (by decide) (by decide)⟩

/-- Claim C9, counterexample.  The claim quantifies over every branch `b`;
for the supplied branch `b = ""` the response body carries branch `main`,
not `b` (the `|| "main"` fallback also fires on the falsy empty string). -/
theorem C9_counterexample :
    handleList [] (some "") = jsonResponse 200 (listBodyJson "main" []) ∧
    jsonResponse 200 (listBodyJson "main" []) ≠ jsonResponse 200 (listBodyJson "" []) := by
  decide

/-- Claim C9 as amended: the list operation never fails — it answers 200
for every bucket and branch parameter; a missing branch parameter (and
likewise the empty string, which JS `||` treats as missing) defaults to
`main`; and on an empty store for any nonempty supplied branch `b` it
returns 200 with body `\x7b branch: b, artifacts: [] \x7d`. -/
theorem C9_list_total_defaults :
    (∀ (bucket : List R2ObjectRec) (bp : Option String), (handleList bucket bp).status = 200) ∧
    (∀ bucket : List R2ObjectRec, handleList bucket none =
      jsonResponse 200 (listBodyJson "main" (r2List bucket ("main" ++ "/latest/")))) ∧
    (∀ bucket : List R2ObjectRec, handleList bucket (some "") = handleList bucket none) ∧
    (∀ b : String, (b == "") = false →
      handleList [] (some b) = jsonResponse 200 (listBodyJson b [])) := by
  refine ⟨fun bucket bp => rfl, fun bucket => rfl, fun bucket => by
    simp [handleList, effectiveBranch], fun b hb => ?_⟩
  simp [handleList, effectiveBranch_of_ne_empty b hb, r2List]

/-- Witness for C9: the spec scenario — list `branch=main` on the empty
store. -/
theorem C9_list_total_defaults_witness :
    handleList [] (some "main") = jsonResponse 200 (listBodyJson "main" []) :=
  C9_list_total_defaults.2.2.2 "main" (by decide)

/-- Claim C3: for every branch `b` and accepted filename `f`, the derived
storage key equals `b ++ "/latest/" ++ f` on both paths — upload reports it
and stores the object under it, download consults exactly it (with `b` the
effective branch) — and the derivation is deterministic (equal inputs give
equal keys). -/
theorem C3_key_derivation (bucket : List R2ObjectRec) (claims : GitHubOIDCClaims)
    (b f bodyBytes : String) (ct : Option String) (now : String)
    (hb : extractBranchFromRef claims.ref = b) (hf : filenameRegexTest f = true) :
    (handleUpload bucket claims (some f) (some bodyBytes) ct now).fst =
      jsonResponse 200 (uploadSuccessBody (b ++ "/latest/" ++ f)) ∧
    (handleUpload bucket claims (some f) (some bodyBytes) ct now).snd =
      r2Put bucket (b ++ "/latest/" ++ f) bodyBytes (uploadContentType ct)
        (uploadCustomMetadata claims b now) now ∧
    (∀ bp, handleDownload bucket bp (some f) =
      downloadAfterGet (r2Get bucket (effectiveBranch bp ++ "/latest/" ++ f)) f) ∧
    (∀ b2 f2 : String, b = b2 → f = f2 →
      b ++ "/latest/" ++ f = b2 ++ "/latest/" ++ f2) := by
  have hfe := filenameRegexTest_ne_empty f hf
  refine ⟨?_, ?_, fun bp => ?_, ?_⟩
  · simp [handleUpload, hfe, hf, hb]
  · simp [handleUpload, hfe, hf, hb]
  · simp [handleDownload, hfe, hf]
  · rintro b2 f2 rfl rfl; rfl

/-- Witness for C3 at `ref = refs/heads/main`, `filename = x.zip`. -/
theorem C3_key_derivation_witness :
    extractBranchFromRef sampleClaims.ref = "main" ∧ filenameRegexTest "x.zip" = true ∧
    (handleUpload [] sampleClaims (some "x.zip") (some "bytes") none "t").fst =
      jsonResponse 200 (uploadSuccessBody ("main" ++ "/latest/" ++ "x.zip")) := by
  refine ⟨by decide, by decide, ?_⟩
  exact (C3_key_derivation [] sampleClaims "main" "x.zip" "bytes" none "t"
    (by decide) (by decide)).1

/-- Claim C4: on the upload route the checks run in order — Authorization
header presence (401), then token verification including the repository
rule (403 with the thrown message), then filename validation (400), each
short-circuiting the later stages; a verification success hands over to
`handleUpload` unchanged. -/
theorem C4_upload_check_order :
    (∀ jv allowed (bucket : List R2ObjectRec) fp rb ct now,
      fetchUpload jv allowed bucket ⟨none, fp, rb, ct⟩ now =
        (jsonResponse 401 (jsonErrorBody "Missing or invalid Authorization header"), bucket)) ∧
    (∀ jv allowed (bucket : List R2ObjectRec) hdr fp rb ct now,
      strStartsWith hdr "Bearer " = false →
      fetchUpload jv allowed bucket ⟨some hdr, fp, rb, ct⟩ now =
        (jsonResponse 401 (jsonErrorBody "Missing or invalid Authorization header"), bucket)) ∧
    (∀ jv allowed (bucket : List R2ObjectRec) t fp rb ct now e,
      verifyGitHubOIDCToken jv t allowed = .error e →
      fetchUpload jv allowed bucket ⟨some ("Bearer " ++ t), fp, rb, ct⟩ now =
        (jsonResponse 403 (jsonErrorBody e), bucket)) ∧
    (∀ jv allowed (bucket : List R2ObjectRec) t fp rb ct now claims,
      verifyGitHubOIDCToken jv t allowed = .ok claims →
      fetchUpload jv allowed bucket ⟨some ("Bearer " ++ t), fp, rb, ct⟩ now =
        handleUpload bucket claims fp rb ct now) ∧
    (∀ jv allowed (bucket : List R2ObjectRec) t f rb ct now claims,
      verifyGitHubOIDCToken jv t allowed = .ok claims →
      f.data.any (fun c => !isFilenameChar c) = true →
      fetchUpload jv allowed bucket ⟨some ("Bearer " ++ t), some f, rb, ct⟩ now =
        (jsonResponse 400 (jsonErrorBody "Invalid filename format"), bucket)) := by
  refine ⟨fun jv allowed bucket fp rb ct now => rfl, ?_, ?_, ?_, ?_⟩
  · intro jv allowed bucket hdr fp rb ct now h
    simp [fetchUpload, h]
  · intro jv allowed bucket t fp rb ct now e h
    simp [fetchUpload, strStartsWith_bearer, strDrop_bearer, h]
  · intro jv allowed bucket t fp rb ct now claims h
    simp [fetchUpload, strStartsWith_bearer, strDrop_bearer, h]
  · intro jv allowed bucket t f rb ct now claims h hbad
    have := handleUpload_invalid_filename bucket claims rb ct now f hbad
    simp [fetchUpload, strStartsWith_bearer, strDrop_bearer, h, this]

/-- Witness for C4: the spec scenario at `filename=../../../etc/passwd` —
an invalid token yields 403 (the token failure wins), a valid token for the
allowed repository yields 400 from filename validation. -/
theorem C4_upload_check_order_witness :
    verifyGitHubOIDCToken (fun _ => .error "signature verification failed") "garbage"
      "f3liz-dev/noraneko-runtime" = .error "signature verification failed" ∧
    (fetchUpload (fun _ => .error "signature verification failed") "f3liz-dev/noraneko-runtime"
      [] ⟨some ("Bearer " ++ "garbage"), some "../../../etc/passwd", some "x", none⟩
      "t").fst.status = 403 ∧
    (fetchUpload (fun _ => .ok sampleClaims) "f3liz-dev/noraneko-runtime"
      [] ⟨some ("Bearer " ++ "ok"), some "../../../etc/passwd", some "x", none⟩
      "t").fst.status = 400 := by
  have h3 := C4_upload_check_order.2.2.1 (fun _ => .error "signature verification failed")
    "f3liz-dev/noraneko-runtime" [] "garbage" (some "../../../etc/passwd") (some "x") none "t"
    "signature verification failed" rfl
  have h5 := C4_upload_check_order.2.2.2.2 (fun _ => .ok sampleClaims)
    "f3liz-dev/noraneko-runtime" [] "ok" "../../../etc/passwd" (some "x") none "t"
    sampleClaims rfl (by decide)
  refine ⟨rfl, ?_, ?_⟩
  · rw [h3]
    rfl
  · rw [h5]
    rfl

/-- Claim C5, counterexample.  The claim states that `verifyGitHubOIDCToken`
does not check the repository claim and that the repository rule fails with
a distinct error kind; in the code the very same function rejects a
correctly verified token over its repository claim, and both failure modes
inhabit the same error channel (a plain message string): here a jose-level
success with a foreign repository becomes an `.error`, of the same kind as
a propagated issuer failure. -/
theorem C5_counterexample :
    verifyGitHubOIDCToken (fun _ => .ok evilClaims) "sometoken" "f3liz-dev/noraneko-runtime" =
      .error "Repository mismatch: expected f3liz-dev/noraneko-runtime, got evil/repo" ∧
    verifyGitHubOIDCToken (fun _ => .error "unexpected issuer") "sometoken"
      "f3liz-dev/noraneko-runtime" = .error "unexpected issuer" := by
  exact ⟨rfl, rfl⟩

/-- Claim C5 as amended: `verifyGitHubOIDCToken` itself performs the
repository check, immediately after the jose verification: a jose failure
is propagated unchanged, a jose success with a mismatched repository claim
becomes an error whose message (not a distinct kind) names the mismatch,
and a success requires the repository claim to equal the configured
value. -/
theorem C5_verifier_checks_repository (jv : String → Except String GitHubOIDCClaims)
    (token allowed : String) (claims : GitHubOIDCClaims) :
    (jv token = .ok claims → (claims.repository == allowed) = false →
      verifyGitHubOIDCToken jv token allowed =
        .error ("Repository mismatch: expected " ++ allowed ++ ", got " ++
          claims.repository)) ∧
    (jv token = .ok claims → (claims.repository == allowed) = true →
      verifyGitHubOIDCToken jv token allowed = .ok claims) ∧
    (∀ e, jv token = .error e → verifyGitHubOIDCToken jv token allowed = .error e) := by
  refine ⟨fun hok hne => verify_repo_mismatch jv token allowed claims hok hne,
    fun hok heq => ?_, fun e he => ?_⟩
  · simp [verifyGitHubOIDCToken, hok, bne, heq]
  · simp [verifyGitHubOIDCToken, he]

/-- Witness for C5 at a concrete mismatched-claims value. -/
theorem C5_verifier_checks_repository_witness :
    (fun _ : String => Except.ok (ε := String) evilClaims) "t" = Except.ok evilClaims ∧
    (evilClaims.repository == "f3liz-dev/noraneko-runtime") = false ∧
    verifyGitHubOIDCToken (fun _ => .ok evilClaims) "t" "f3liz-dev/noraneko-runtime" =
      .error ("Repository mismatch: expected " ++ "f3liz-dev/noraneko-runtime" ++ ", got " ++
        evilClaims.repository) := by
  refine ⟨rfl, by decide, ?_⟩
  exact (C5_verifier_checks_repository (fun _ => .ok evilClaims) "t"
    "f3liz-dev/noraneko-runtime" evilClaims).1 rfl (by decide)

theorem verifyCallSequence_count (jv : String → Except String GitHubOIDCClaims)
    (calls : List (String × String)) : ∀ st : JWKSProcessState,
    (verifyCallSequence jv st calls).remoteJWKSetConstructions =
      st.remoteJWKSetConstructions + calls.length := by
  induction calls with
  | nil => intro st; simp [verifyCallSequence]
  | cons c cs ih =>
    intro st
    have h := ih ⟨st.remoteJWKSetConstructions + 1⟩
    have hstep : verifyCallSequence jv st (c :: cs) =
        verifyCallSequence jv ⟨st.remoteJWKSetConstructions + 1⟩ cs := rfl
    rw [hstep, h]
    simp only [List.length_cons]
    omega

/-- Claim C6, counterexample.  The claim states the key-set fetcher is
process-wide and never constructed afresh per verification call; but the
source evaluates `jose.createRemoteJWKSet` inside `verifyGitHubOIDCToken`,
so two verification calls construct two fetchers, not at most one. -/
theorem C6_counterexample :
    (verifyCallSequence (fun _ => .error "bad") ⟨0⟩
      [("t1", "r"), ("t2", "r")]).remoteJWKSetConstructions = 2 ∧
    ¬ (verifyCallSequence (fun _ => .error "bad") ⟨0⟩
      [("t1", "r"), ("t2", "r")]).remoteJWKSetConstructions ≤ 1 := by
  decide

/-- Claim C6 as amended: every verification call constructs exactly one
fresh remote key-set fetcher (the `createRemoteJWKSet` call sits in the
function body), so after `n` calls from process start `n` fetchers have
been constructed — there is no process-wide cache shared across calls. -/
theorem C6_fresh_fetcher_per_call :
    (∀ (st : JWKSProcessState) jv token allowed,
      (verifyGitHubOIDCTokenCounted st jv token allowed).fst.remoteJWKSetConstructions =
        st.remoteJWKSetConstructions + 1) ∧
    (∀ jv (calls : List (String × String)),
      (verifyCallSequence jv ⟨0⟩ calls).remoteJWKSetConstructions = calls.length) := by
  refine ⟨fun st jv token allowed => rfl, fun jv calls => ?_⟩
  simpa using verifyCallSequence_count jv calls ⟨0⟩

theorem strContainsSub_of_decomp (s x t y : String)
    (h : s.data = x.data ++ (t.data ++ y.data)) : strContainsSub s t = true := by
  show listContainsSub t.data s.data = true
  rw [h]
  simpa [List.append_assoc] using listContainsSub_append x.data t.data y.data

/-- Claim C7, counterexample.  The claim states the claimed repository
string is never included verbatim in the 403 body; but the worker passes
the caught error message — `Repository mismatch: expected ..., got
evil/repo` — straight into `JSON.stringify (\x7b error \x7d)`, so the body
contains the claimed repository. -/
theorem C7_counterexample :
    (fetchUpload (fun _ => .ok evilClaims) "f3liz-dev/noraneko-runtime" []
      ⟨some "Bearer tok", some "a.zip", some "x", none⟩ "t").fst.status = 403 ∧
    strContainsSub (fetchUpload (fun _ => .ok evilClaims) "f3liz-dev/noraneko-runtime" []
      ⟨some "Bearer tok", some "a.zip", some "x", none⟩ "t").fst.body "evil/repo" = true := by
  decide

/-- Claim C7 as amended: whenever a correctly verified token carries a
repository claim different from the configured one, the upload route
answers 403 and its response body DOES contain the claimed repository
string verbatim (inside the repository-mismatch message); the
escape-freeness hypothesis only says the repository string survives JSON
string escaping unchanged, which holds for every well-formed
`owner/name`. -/
theorem C7_repository_leaked (jv : String → Except String GitHubOIDCClaims)
    (allowed : String) (bucket : List R2ObjectRec) (token : String)
    (fp rb ct : Option String) (now : String) (claims : GitHubOIDCClaims)
    (hok : jv token = .ok claims)
    (hne : (claims.repository == allowed) = false)
    (hfree : claims.repository.data.all escFreeChar = true) :
    (fetchUpload jv allowed bucket ⟨some ("Bearer " ++ token), fp, rb, ct⟩ now).fst.status =
      403 ∧
    strContainsSub
      (fetchUpload jv allowed bucket ⟨some ("Bearer " ++ token), fp, rb, ct⟩ now).fst.body
      claims.repository = true := by
  have hv := verify_repo_mismatch jv token allowed claims hok hne
  have hfetch : fetchUpload jv allowed bucket ⟨some ("Bearer " ++ token), fp, rb, ct⟩ now =
      (jsonResponse 403 (jsonErrorBody ("Repository mismatch: expected " ++ allowed ++
        ", got " ++ claims.repository)), bucket) := by
    simp [fetchUpload, strStartsWith_bearer, strDrop_bearer, hv]
  refine ⟨by rw [hfetch]; rfl, ?_⟩
  have hbody : (fetchUpload jv allowed bucket ⟨some ("Bearer " ++ token), fp, rb, ct⟩
      now).fst.body = jsonErrorBody ("Repository mismatch: expected " ++ allowed ++
        ", got " ++ claims.repository) := by
    rw [hfetch]
    rfl
  rw [hbody]
  apply strContainsSub_of_decomp _
    ("\x7b\x22error\x22:" ++ ("\x22" ++
      jsonEscape ("Repository mismatch: expected " ++ allowed ++ ", got ")))
    claims.repository ("\x22" ++ "\x7d")
  simp [jsonErrorBody, jsonStr, jsonEscape, List.append_assoc,
    flatMap_jsonEscapeChar_of_escFree claims.repository.data hfree]

/-- Witness for C7 at the concrete mismatched claims. -/
theorem C7_repository_leaked_witness :
    (fun _ : String => Except.ok (ε := String) evilClaims) "tok" = Except.ok evilClaims ∧
    (evilClaims.repository == "f3liz-dev/noraneko-runtime") = false ∧
    evilClaims.repository.data.all escFreeChar = true ∧
    strContainsSub (fetchUpload (fun _ => .ok evilClaims) "f3liz-dev/noraneko-runtime" []
      ⟨some ("Bearer " ++ "tok"), some "a.zip", some "x", none⟩ "t").fst.body
      evilClaims.repository = true := by
  refine ⟨rfl, by decide, by decide, ?_⟩
  exact (C7_repository_leaked (fun _ => .ok evilClaims) "f3liz-dev/noraneko-runtime" [] "tok"
    (some "a.zip") (some "x") none "t" evilClaims rfl (by decide) (by decide)).2

/-- Claim C10: a successful download of an object carrying custom metadata
returns 200 and exposes the stored repository, branch, upload timestamp
and run id as the four `X-Artifact-*` headers, substituting the empty
string for any absent field (`|| ""`). -/
theorem C10_download_metadata_headers (bucket : List R2ObjectRec) (bp : Option String)
    (f : String) (obj : R2ObjectRec) (m : R2CustomMetadata)
    (hf : filenameRegexTest f = true)
    (hget : r2Get bucket (effectiveBranch bp ++ "/latest/" ++ f) = some obj)
    (hm : obj.customMetadata = some m) :
    (handleDownload bucket bp (some f)).status = 200 ∧
    headerGet (handleDownload bucket bp (some f)).headers "X-Artifact-Repository" =
      some (m.repository.getD "") ∧
    headerGet (handleDownload bucket bp (some f)).headers "X-Artifact-Branch" =
      some (m.branch.getD "") ∧
    headerGet (handleDownload bucket bp (some f)).headers "X-Artifact-Uploaded-At" =
      some (m.uploaded_at.getD "") ∧
    headerGet (handleDownload bucket bp (some f)).headers "X-Artifact-Run-Id" =
      some (m.run_id.getD "") := by
  have hfe := filenameRegexTest_ne_empty f hf
  have hdl : handleDownload bucket bp (some f) = downloadAfterGet (some obj) f := by
    simp [handleDownload, hfe, hf, hget]
  rw [hdl]
  refine ⟨by simp [downloadAfterGet], ?_, ?_, ?_, ?_⟩ <;>
    simp +decide [downloadAfterGet, hm, headerGet, List.find?]

def metaCustom : R2CustomMetadata :=
  ⟨some "f3liz-dev/noraneko-runtime", none, none, some "octocat", some "42", none,
    some "2024-01-01T00:00:00.000Z"⟩

def metaObj : R2ObjectRec :=
  ⟨"main/latest/a.zip", 5, "2024", some ⟨some "application/zip"⟩, some metaCustom, "bytes"⟩

def metaBucket : List R2ObjectRec := [metaObj]

/-- Witness for C10: a stored object whose metadata lacks the branch field
— the header is served with the empty string substituted. -/
theorem C10_download_metadata_headers_witness :
    (handleDownload metaBucket (some "main") (some "a.zip")).status = 200 ∧
    headerGet (handleDownload metaBucket (some "main") (some "a.zip")).headers
      "X-Artifact-Repository" = some (metaCustom.repository.getD "") ∧
    headerGet (handleDownload metaBucket (some "main") (some "a.zip")).headers
      "X-Artifact-Branch" = some (metaCustom.branch.getD "") ∧
    metaCustom.branch.getD "" = "" := by
  have h := C10_download_metadata_headers metaBucket (some "main") "a.zip" metaObj metaCustom
    (by decide) (by decide) rfl
  exact ⟨h.1, h.2.1, h.2.2.1, rfl⟩

end ArtifactStore
